import Mathlib

/-!
Verification of the garderobe coat-check service's core against its
specification.  The Redis-backed operations of `location-manager.js`,
`event-manager.js` and `routes.js` are shallowly embedded: Redis sets are
duplicate-free lists of strings, Redis hashes are records with optional
string fields, and each handler's store interaction is an explicit
state-passing function.
-/

namespace Garderobe

/-- State of one event's location pool: the Redis sets
`event:{slug}:available_locations` and `event:{slug}:used_locations`
(location-manager.js), modelled as lists of slot-identifier strings.
A Redis set has no duplicates; theorems that need this carry a `Nodup`
hypothesis on the corresponding list. -/
structure PoolState where
  available : List String
  occupied : List String
deriving Repr, DecidableEq

/-- Redis `SADD` on a set modelled as a list: appends the element only if
it is not already a member. -/
def sAdd (s : List String) (x : String) : List String :=
  if x ∈ s then s else s ++ [x]

/-- Embeds `getNextLocation` (location-manager.js): the Lua script
`SPOP available; if popped then SADD used popped; return popped`.
`SPOP` removes an arbitrary member of the set; the arbitrary choice is
modelled by popping the head of the list, with theorems quantifying over
every ordering of `available`. Returns the popped location (or `none` when
the available set is empty) together with the updated pool. -/
def getNextLocation (st : PoolState) : Option String × PoolState :=
  match st.available with
  | [] => (none, st)
  | l :: rest => (some l, ⟨rest, sAdd st.occupied l⟩)

/-- Embeds `returnLocation` (location-manager.js): the Lua script
`SREM used slot; if removed == 1 then SADD available slot; return 1 else 0`.
Returns whether the slot was occupied (the script's 1/0) together with the
updated pool. -/
def returnLocation (st : PoolState) (location : String) : Bool × PoolState :=
  if location ∈ st.occupied then
    (true, ⟨sAdd st.available location, st.occupied.erase location⟩)
  else
    (false, st)

/-- The pool-creation path of `initializeLocations` (location-manager.js)
when the available key does not yet exist: every expanded location is
`SADD`ed into the available set and the used set starts empty. -/
def initializeLocations (locations : List String) : PoolState :=
  ⟨locations.foldl sAdd [], []⟩

/-- Runs `N` sequential `getNextLocation` calls (any concurrent execution of the
atomic Lua script serialises to such a sequence), collecting each call's
result. -/
def runTakes : Nat → PoolState → List (Option String) × PoolState
  | 0, st => ([], st)
  | n + 1, st =>
      let p := getNextLocation st
      let q := runTakes n p.2
      (p.1 :: q.1, q.2)

/-- One pool operation: a `getNextLocation` call or a `returnLocation` call
with a given slot argument. -/
inductive PoolOp where
  | take : PoolOp
  | ret : String → PoolOp
deriving Repr, DecidableEq

/-- Apply one pool operation to the pool state, discarding the reply. -/
def applyPoolOp (st : PoolState) : PoolOp → PoolState
  | .take => (getNextLocation st).2
  | .ret l => (returnLocation st l).2

/-- Run a sequence of pool operations left to right. -/
def runPool (st : PoolState) : List PoolOp → PoolState
  | [] => st
  | op :: ops => runPool (applyPoolOp st op) ops

/-- The pool-conservation invariant relative to the initially expanded
universe of slots: both Redis sets are duplicate-free, no slot is in both
sets, a slot is in one of the two sets exactly when it was part of the
initial expansion, and the cardinalities sum to the initial slot count. -/
def PoolInv (univ : List String) (st : PoolState) : Prop :=
  st.available.Nodup ∧ st.occupied.Nodup ∧
  (∀ x, ¬(x ∈ st.available ∧ x ∈ st.occupied)) ∧
  (∀ x, x ∈ univ ↔ (x ∈ st.available ∨ x ∈ st.occupied)) ∧
  st.available.length + st.occupied.length = univ.length

/-- The raw Redis hash `event:{slug}:ticket:{n}` as written by `saveTicket`
(routes.js).  `redis.hSet` merges the given fields into the hash, so a
field not mentioned by a write keeps its previous value; `none` models an
absent field.  The check-out handler writes the empty string into
`location`, which is distinct from the field being absent. -/
structure TicketHash where
  token : Option String
  location : Option String
  createdAt : Option String
  checkedInAt : Option String
  checkedOutAt : Option String
deriving Repr, DecidableEq

/-- JavaScript truthiness of a possibly-absent hash field: `undefined`
(absent) and the empty string are falsy, every other string is truthy. -/
def jsTruthy : Option String → Bool
  | none => false
  | some s => s ≠ ""

/-- The JavaScript expression `x || null`: an absent or empty-string field
becomes `null`. -/
def jsOrNull : Option String → Option String
  | none => none
  | some s => if s = "" then none else some s

/-- The ticket object returned by `getTicket` (routes.js): processed
fields plus the derived status string. -/
structure TicketView where
  token : Option String
  location : Option String
  status : String
  createdAt : Option String
  checkedInAt : Option String
  checkedOutAt : Option String
deriving Repr, DecidableEq

/-- The status derivation inside `getTicket` (routes.js):
`data.checkedOutAt ? 'checked_out' : (data.location ? 'checked_in' : 'new')`
— the release timestamp takes precedence over the slot field. -/
def getTicketStatus (d : TicketHash) : String :=
  if jsTruthy d.checkedOutAt then "checked_out"
  else if jsTruthy d.location then "checked_in"
  else "new"

/-- Embeds `getTicket` (routes.js) on a hash that exists: builds the ticket view
from the raw hash fields. -/
def getTicket (d : TicketHash) : TicketView :=
  { token := d.token
    location := jsOrNull d.location
    status := getTicketStatus d
    createdAt := d.createdAt
    checkedInAt := jsOrNull d.checkedInAt
    checkedOutAt := jsOrNull d.checkedOutAt }

/-- The status derivation of the `GET /e/:slug/api/status/:id` handler
(routes.js): `if (ticket.location) checked_in else if (ticket.checkedOutAt)
checked_out else new` — the slot field takes precedence over the release
timestamp. -/
def apiStatus (t : TicketView) : String :=
  if jsTruthy t.location then "checked_in"
  else if jsTruthy t.checkedOutAt then "checked_out"
  else "new"

/-- Result of the `POST /e/:slug/api/check-in` handler. -/
inductive CheckInResult where
  | alreadyCheckedIn : String → CheckInResult
  | wardrobeFull : CheckInResult
  | checkedIn : String → CheckInResult
deriving Repr, DecidableEq

/-- Result of the `POST /e/:slug/api/check-out` handler. -/
inductive CheckOutResult where
  | notCheckedIn : CheckOutResult
  | checkedOut : CheckOutResult
deriving Repr, DecidableEq

/-- Core of `POST /e/:slug/api/check-in` (routes.js), after the event and
ticket lookups succeed: if the ticket view has a location, reply
`already checked in` without touching the pool; otherwise pop a location
via `getNextLocation` (replying `Wardrobe full` on `none`) and `saveTicket`
the fields token, location, createdAt, checkedInAt — `hSet` leaves
`checkedOutAt` as it was.  `now` is the written `checkedInAt` timestamp. -/
def checkIn (d : TicketHash) (pool : PoolState) (now : String) :
    CheckInResult × TicketHash × PoolState :=
  let t := getTicket d
  match t.location with
  | some loc => (.alreadyCheckedIn loc, d, pool)
  | none =>
      match getNextLocation pool with
      | (none, pool1) => (.wardrobeFull, d, pool1)
      | (some location, pool1) =>
          (.checkedIn location,
           { token := t.token
             location := some location
             createdAt := t.createdAt
             checkedInAt := some now
             checkedOutAt := d.checkedOutAt },
           pool1)

/-- Core of `POST /e/:slug/api/check-out` (routes.js), after the ticket
lookup succeeds: if the ticket view has no location, reply `not checked
in` with no mutation; otherwise `returnLocation` the held slot (its result
is discarded by the handler) and `saveTicket` the fields token,
location = '' (empty string, not field removal), createdAt, checkedInAt,
checkedOutAt = `now`. -/
def checkOut (d : TicketHash) (pool : PoolState) (now : String) :
    CheckOutResult × TicketHash × PoolState :=
  let t := getTicket d
  match t.location with
  | none => (.notCheckedIn, d, pool)
  | some location =>
      let pool1 := (returnLocation pool location).2
      (.checkedOut,
       { token := t.token
         location := some ""
         createdAt := t.createdAt
         checkedInAt := t.checkedInAt
         checkedOutAt := some now },
       pool1)

/-- Constant `MAX_TICKETS_PER_EVENT` (routes.js): default per-event ticket
ceiling. -/
def MAX_TICKETS_PER_EVENT : Nat := 1000

/-- Core of `GET /e/:slug/new` (routes.js) acting on the per-event counter
key `event:{slug}:counter`, which `createEvent` (event-manager.js)
initialises to 0: if the stored count has reached the ceiling, reply
`Event ticket limit reached`; otherwise `INCR` the counter atomically and
use the incremented value as the new ticket id.  Returns the issued id (or
`none`) together with the new counter value. -/
def issueTicket (counter : Nat) : Option Nat × Nat :=
  if MAX_TICKETS_PER_EVENT ≤ counter then (none, counter)
  else (some (counter + 1), counter + 1)

/-- Runs `n` serialised ticket issuances (the counter update is an atomic
Redis `INCR`, so any concurrent execution serialises), collecting each
call's reply. -/
def issueN : Nat → Nat → List (Option Nat) × Nat
  | 0, c => ([], c)
  | n + 1, c =>
      let p := issueTicket c
      let q := issueN n p.2
      (p.1 :: q.1, q.2)

/-- Constant `MAX_ACTIVE_EVENTS` (routes.js): default global active-event
ceiling. -/
def MAX_ACTIVE_EVENTS : Nat := 1000

/-- Constant `MAX_EVENTS_PER_HOUR_GLOBAL` (routes.js): default global hourly
creation ceiling. -/
def MAX_EVENTS_PER_HOUR_GLOBAL : Nat := 100

/-- Constant `MAX_EVENTS_PER_IP_PER_HOUR` (routes.js): default per-IP hourly
creation ceiling. -/
def MAX_EVENTS_PER_IP_PER_HOUR : Nat := 10

/-- The store keys consulted by the quota phase of `POST /api/events`
(routes.js): the cardinality of `active_events`, the value of
`events_created_this_hour` (0 when the key is absent) and the value of the
caller's `ratelimit:events:{ip}` key (0 when absent). -/
structure CreationStore where
  activeEvents : Nat
  hourlyCount : Nat
  ipCount : Nat
deriving Repr, DecidableEq

/-- Outcome of the quota phase of `POST /api/events`. -/
inductive QuotaOutcome where
  | atCapacity : QuotaOutcome
  | hourlyLimited : QuotaOutcome
  | ipLimited : QuotaOutcome
  | allowed : QuotaOutcome
deriving Repr, DecidableEq

/-- The quota phase of `POST /api/events` (routes.js): reject with 503
when `SCARD active_events >= MAX_ACTIVE_EVENTS` (a pure read); otherwise
`INCR events_created_this_hour` and reject with 503 when the incremented
value exceeds `MAX_EVENTS_PER_HOUR_GLOBAL`; otherwise `checkRateLimit`
`INCR`s the caller's `ratelimit:events:{ip}` key and the request is
rejected with 429 when that incremented value exceeds
`MAX_EVENTS_PER_IP_PER_HOUR`.  The `expire` calls that accompany a first
`INCR` only set key TTLs and are not modelled. -/
def eventCreationQuotaPhase (st : CreationStore) : QuotaOutcome × CreationStore :=
  if MAX_ACTIVE_EVENTS ≤ st.activeEvents then (.atCapacity, st)
  else
    let st1 : CreationStore := { st with hourlyCount := st.hourlyCount + 1 }
    if MAX_EVENTS_PER_HOUR_GLOBAL < st1.hourlyCount then (.hourlyLimited, st1)
    else
      let st2 : CreationStore := { st1 with ipCount := st1.ipCount + 1 }
      if MAX_EVENTS_PER_IP_PER_HOUR < st2.ipCount then (.ipLimited, st2)
      else (.allowed, st2)

/-- The slug-generation do-while loop of `createEvent` (event-manager.js):
`gen i` is the candidate returned by the i-th draw of `generateEventSlug`
and `ex s` the boolean of the `redis.exists` collision check.  The body
draws a candidate, increments `attempts`, breaks when the existence check
passes, and otherwise repeats while `attempts < 10`.  Returns the last
drawn slug together with the final value of `attempts`; structural `fuel`
bounds the recursion and is never exhausted when called with fuel 10. -/
def slugLoopAux (gen : Nat → String) (ex : String → Bool) :
    Nat → Nat → String × Nat
  | fuel, attempts =>
      let slug := gen attempts
      let a := attempts + 1
      if ex slug = false then (slug, a)
      else
        match fuel with
        | 0 => (slug, a)
        | f + 1 => if a < 10 then slugLoopAux gen ex f a else (slug, a)

/-- Embeds the slug generation of `createEvent` (event-manager.js): run the do-while
loop from `attempts = 0`; afterwards `if (attempts >= 10)` the function
throws `Failed to generate unique event slug` (modelled as `none`),
otherwise the drawn slug is used. -/
def createEventSlug (gen : Nat → String) (ex : String → Bool) :
    Option String :=
  let r := slugLoopAux gen ex 10 0
  if 10 ≤ r.2 then none else some r.1

/-- JavaScript `String.prototype.split` with a single-character separator,
on the string's character list: splits at every occurrence of the
separator, keeping empty pieces, and always returns at least one piece. -/
def jsSplit (sep : Char) : List Char → List (List Char)
  | [] => [[]]
  | c :: rest =>
      if c = sep then [] :: jsSplit sep rest
      else
        match jsSplit sep rest with
        | [] => [[c]]
        | p :: ps => (c :: p) :: ps

/-- The decimal digit character for `d < 10`, as produced by JavaScript
number-to-string conversion. -/
def digitChar (d : Nat) : Char := Char.ofNat (48 + d)

/-- Decimal rendering with structural fuel; `fuel > n` always suffices
because the recursion divides by ten. -/
def natToCharsAux : Nat → Nat → List Char
  | 0, _ => []
  | fuel + 1, n =>
      if n < 10 then [digitChar n]
      else natToCharsAux fuel (n / 10) ++ [digitChar (n % 10)]

/-- Decimal rendering of a natural number: what JavaScript template
interpolation produces for a non-negative integer (as in the slot
identifiers and in `buildLocationSchema`). -/
def natToChars (n : Nat) : List Char := natToCharsAux (n + 1) n

/-- The numeric value of a decimal digit character, `none` otherwise. -/
def charDigit (c : Char) : Option Nat :=
  if 48 ≤ c.toNat ∧ c.toNat ≤ 57 then some (c.toNat - 48) else none

/-- Accumulating decimal parse; `none` at the first non-digit. -/
def charsToNatAux : List Char → Nat → Option Nat
  | [], acc => some acc
  | c :: rest, acc =>
      match charDigit c with
      | none => none
      | some d => charsToNatAux rest (acc * 10 + d)

/-- JavaScript `Number(piece)` on the pieces produced by splitting a
location schema on '-': the empty string converts to 0, a string of
decimal digits to its value, and anything else to NaN (modelled `none`;
a NaN bound makes the corresponding `for` loop run zero times).
Fractional, hexadecimal, exponent and whitespace forms also yield numbers
in JavaScript but cannot occur in the claims' valid descriptors and are
modelled as `none`. -/
def jsNumber : List Char → Option Nat
  | [] => some 0
  | cs => charsToNatAux cs 0

/-- An inclusive JavaScript `for (i = a; i <= b; i++)` counter range with
possibly-NaN (`none`) bounds: any NaN comparison is false, so the loop
body never runs. -/
def natRange : Option Nat → Option Nat → List Nat
  | some a, some b => List.range' a (b + 1 - a)
  | _, _ => []

/-- The slot identifier `"{rack}-{spot}"` synthesized by
`parseLocationSchema` (location-manager.js). -/
def locationId (rack : Char) (spot : Nat) : String :=
  String.mk (rack :: '-' :: natToChars spot)

/-- Embeds `parseLocationSchema` (location-manager.js): split the schema on ':'
into rack range and spot range (destructuring takes the first two pieces;
a missing second piece makes the later `.split` call throw, modelled
`none`); split the rack range on '-' (a missing second piece makes
`endRack.charCodeAt` throw, modelled `none`); split the spot range on '-'
and convert the first two pieces with `Number`; then iterate rack
character codes and spot numbers inclusively, collecting
`"{rack}-{spot}"` identifiers in row-major order.  `charCodeAt(0)` of an
empty piece is NaN (`none`), and `String.fromCharCode` is `Char.ofNat`. -/
def parseLocationSchema (schema : String) : Option (List String) :=
  match jsSplit ':' schema.data with
  | racksRange :: spotsRange :: _ =>
      match jsSplit '-' racksRange with
      | startRack :: endRack :: _ =>
          let spotPieces := (jsSplit '-' spotsRange).map jsNumber
          let startSpot := spotPieces.getD 0 none
          let endSpot := spotPieces.getD 1 none
          let startCharCode := startRack.head?.map Char.toNat
          let endCharCode := endRack.head?.map Char.toNat
          some ((natRange startCharCode endCharCode).flatMap (fun code =>
            (natRange startSpot endSpot).map (fun spot =>
              locationId (Char.ofNat code) spot)))
      | _ => none
  | _ => none

/-- Embeds `buildLocationSchema` (event-manager.js):
`"{rackStart}-{rackEnd}:{spotStart}-{spotEnd}"`.  The source takes the
rack bounds as request strings; valid descriptors have single rank
letters, embedded here as `Char`. -/
def buildLocationSchema (rackStart rackEnd : Char) (spotStart spotEnd : Nat) :
    String :=
  String.mk ([rackStart, '-', rackEnd, ':'] ++
    natToChars spotStart ++ '-' :: natToChars spotEnd)

lemma sAdd_of_not_mem {s : List String} {x : String} (h : x ∉ s) :
    sAdd s x = s ++ [x] := by
  simp [sAdd, h]

lemma sAdd_nodup {s : List String} {x : String} (h : s.Nodup) :
    (sAdd s x).Nodup := by
  by_cases hx : x ∈ s
  · simpa [sAdd, hx] using h
  · rw [sAdd_of_not_mem hx]
    refine List.nodup_append.mpr ⟨h, by simp, ?_⟩
    intro a ha hax
    rw [List.mem_singleton] at hax
    exact hx (hax ▸ ha)

lemma mem_sAdd {s : List String} {x y : String} :
    y ∈ sAdd s x ↔ y ∈ s ∨ y = x := by
  by_cases hx : x ∈ s
  · simp only [sAdd, if_pos hx]
    constructor
    · exact fun h => Or.inl h
    · rintro (h | rfl) <;> [exact h; exact hx]
  · simp [sAdd, hx]

lemma foldl_sAdd_nodup (l : List String) :
    ∀ acc : List String, acc.Nodup → (l.foldl sAdd acc).Nodup := by
  induction l with
  | nil => intro acc h; simpa using h
  | cons x xs ih => intro acc h; exact ih _ (sAdd_nodup h)

lemma initializeLocations_available_nodup (locations : List String) :
    (initializeLocations locations).available.Nodup :=
  foldl_sAdd_nodup locations [] (by simp)

lemma runTakes_empty (n : Nat) (occ : List String) :
    runTakes n ⟨[], occ⟩ = (List.replicate n none, ⟨[], occ⟩) := by
  induction n with
  | zero => rfl
  | succ m ih => simp [runTakes, getNextLocation, ih, List.replicate_succ]

lemma runTakes_results (avail : List String) :
    ∀ (n : Nat) (occ : List String), avail.length ≤ n →
      (runTakes n ⟨avail, occ⟩).1 =
        avail.map some ++ List.replicate (n - avail.length) none := by
  induction avail with
  | nil => intro n occ _; simp [runTakes_empty]
  | cons l rest ih =>
      intro n occ hn
      match n, hn with
      | m + 1, hn =>
        have hm : rest.length ≤ m := Nat.lt_succ_iff.mp (by exact hn)
        simp [runTakes, getNextLocation, ih m _ hm, Nat.succ_sub_succ]

lemma poolInv_applyPoolOp {univ : List String} {st : PoolState}
    (h : PoolInv univ st) (op : PoolOp) : PoolInv univ (applyPoolOp st op) := by
  obtain ⟨avail, occ⟩ := st
  obtain ⟨hA, hO, hdisj, huniv, hlen⟩ := h
  cases op with
  | take =>
      cases avail with
      | nil => exact ⟨hA, hO, hdisj, huniv, hlen⟩
      | cons l rest =>
          have hlrest : l ∉ rest := (List.nodup_cons.mp hA).1
          have hrest : rest.Nodup := (List.nodup_cons.mp hA).2
          have hlocc : l ∉ occ := fun hm => hdisj l ⟨List.mem_cons_self l rest, hm⟩
          refine ⟨hrest, sAdd_nodup hO, ?_, ?_, ?_⟩
          · intro x ⟨hx1, hx2⟩
            rcases mem_sAdd.mp hx2 with hx2 | rfl
            · exact hdisj x ⟨List.mem_cons_of_mem l hx1, hx2⟩
            · exact hlrest hx1
          · intro x
            rw [huniv x]
            simp only [applyPoolOp, getNextLocation, List.mem_cons, mem_sAdd]
            tauto
          · show rest.length + (sAdd occ l).length = univ.length
            have hlen' : (l :: rest).length + occ.length = univ.length := hlen
            rw [sAdd_of_not_mem hlocc, List.length_append]
            simp only [List.length_cons] at hlen'
            simp only [List.length_singleton]
            omega
  | ret l =>
      by_cases hm : l ∈ occ
      · have hlavail : l ∉ avail := fun ha => hdisj l ⟨ha, hm⟩
        simp only [applyPoolOp, returnLocation, if_pos hm]
        refine ⟨sAdd_nodup hA, hO.erase l, ?_, ?_, ?_⟩
        · intro x ⟨hx1, hx2⟩
          rcases mem_sAdd.mp hx1 with hx1 | rfl
          · exact hdisj x ⟨hx1, List.mem_of_mem_erase hx2⟩
          · exact hO.not_mem_erase hx2
        · intro x
          rw [huniv x]
          simp only [mem_sAdd]
          constructor
          · rintro (hx | hx)
            · exact Or.inl (Or.inl hx)
            · by_cases hxl : x = l
              · exact Or.inl (Or.inr hxl)
              · exact Or.inr ((List.mem_erase_of_ne hxl).mpr hx)
          · rintro ((hx | rfl) | hx)
            · exact Or.inl hx
            · exact Or.inr hm
            · exact Or.inr (List.mem_of_mem_erase hx)
        · rw [sAdd_of_not_mem hlavail, List.length_append,
            List.length_erase_of_mem hm]
          have hocc : 0 < occ.length := List.length_pos_of_mem hm
          have hlen' : avail.length + occ.length = univ.length := hlen
          simp only [List.length_singleton]
          omega
      · simpa only [applyPoolOp, returnLocation, if_neg hm] using
          ⟨hA, hO, hdisj, huniv, hlen⟩

lemma poolInv_runPool {univ : List String} {st : PoolState}
    (h : PoolInv univ st) (ops : List PoolOp) : PoolInv univ (runPool st ops) := by
  induction ops generalizing st with
  | nil => exact h
  | cons op ops ih => exact ih (poolInv_applyPoolOp h op)

lemma poolInv_init (locations : List String) :
    PoolInv (initializeLocations locations).available
      (initializeLocations locations) := by
  refine ⟨initializeLocations_available_nodup locations, by simp [initializeLocations], ?_, ?_, ?_⟩
  · intro x ⟨_, hx⟩
    simp [initializeLocations] at hx
  · intro x
    simp [initializeLocations]
  · simp [initializeLocations]

/-- C2: starting from a freshly initialized pool, after any sequence of
`getNextLocation` and `returnLocation` calls (any interleaving of the
atomic Lua scripts serialises to such a sequence, with arbitrary slot
arguments allowed for `returnLocation`), the available and occupied sets
are disjoint, every slot of the initial expansion is in exactly one of
them, nothing else ever appears, and their cardinalities sum to the slot
count fixed at initialization. -/
theorem c2_pool_conservation (locations : List String) (ops : List PoolOp) :
    PoolInv (initializeLocations locations).available
      (runPool (initializeLocations locations) ops) :=
  poolInv_runPool (poolInv_init locations) ops

/-- C1: `getNextLocation` is a single atomic step: on a non-empty available
set it returns one member, removes exactly that member from `available` and
adds it to `occupied`; on an empty available set it returns `none` and
changes nothing.  Consequently `N` serialised calls against a pool with
`M = |available| < N` slots return exactly the `M` distinct slots of the
pool (no identifier twice) and `N - M` times `none`. -/
theorem c1_takeSlot_atomic (st : PoolState) (N : Nat)
    (hnd : st.available.Nodup) (hN : st.available.length < N) :
    (st.available = [] → getNextLocation st = (none, st)) ∧
    (∀ l rest, st.available = l :: rest →
        getNextLocation st = (some l, ⟨rest, sAdd st.occupied l⟩) ∧
        l ∉ rest ∧ l ∈ sAdd st.occupied l) ∧
    (runTakes N st).1.filterMap id = st.available ∧
    ((runTakes N st).1.filterMap id).Nodup ∧
    List.count none (runTakes N st).1 = N - st.available.length := by
  obtain ⟨avail, occ⟩ := st
  have hres := runTakes_results avail N occ (Nat.le_of_lt hN)
  refine ⟨?_, ?_, ?_, ?_, ?_⟩
  · intro h
    simp only at h
    subst h
    rfl
  · intro l rest h
    simp only at h
    subst h
    exact ⟨rfl, (List.nodup_cons.mp hnd).1, mem_sAdd.mpr (Or.inr rfl)⟩
  · rw [hres]
    simp
  · rw [hres]
    simpa using hnd
  · rw [hres]
    simp [List.count_append, List.count_eq_zero.mpr]

/-- Witness for C1 at a concrete pool of two slots and three calls. -/
theorem c1_takeSlot_atomic_witness :
    (["A-1", "A-2"] : List String).Nodup ∧
    (⟨["A-1", "A-2"], []⟩ : PoolState).available.length < 3 ∧
    (runTakes 3 ⟨["A-1", "A-2"], []⟩).1.filterMap id = ["A-1", "A-2"] ∧
    List.count none (runTakes 3 (⟨["A-1", "A-2"], []⟩ : PoolState)).1 = 1 :=
  ⟨by decide, by decide,
    (c1_takeSlot_atomic ⟨["A-1", "A-2"], []⟩ 3 (by decide) (by decide)).2.2.1,
    by simpa using
      (c1_takeSlot_atomic ⟨["A-1", "A-2"], []⟩ 3 (by decide) (by decide)).2.2.2.2⟩

/-- C3: `returnLocation` on a slot that is not occupied reports failure and
changes nothing; on an occupied slot it reports success, removes exactly
that slot from `occupied`, adds it to `available`, and touches no other
slot. -/
theorem c3_returnLocation (st : PoolState) (l : String)
    (hnd : st.occupied.Nodup) :
    (l ∉ st.occupied → returnLocation st l = (false, st)) ∧
    (l ∈ st.occupied →
      (returnLocation st l).1 = true ∧
      l ∉ (returnLocation st l).2.occupied ∧
      l ∈ (returnLocation st l).2.available ∧
      (∀ x, x ≠ l →
        ((x ∈ (returnLocation st l).2.occupied ↔ x ∈ st.occupied) ∧
         (x ∈ (returnLocation st l).2.available ↔ x ∈ st.available)))) := by
  constructor
  · intro h
    simp [returnLocation, h]
  · intro h
    refine ⟨by simp [returnLocation, h], ?_, ?_, ?_⟩
    · simp only [returnLocation, if_pos h]
      exact hnd.not_mem_erase
    · simp only [returnLocation, if_pos h]
      exact mem_sAdd.mpr (Or.inr rfl)
    · intro x hx
      simp only [returnLocation, if_pos h]
      constructor
      · exact ⟨fun hm => List.mem_of_mem_erase hm,
          fun hm => (List.mem_erase_of_ne hx).mpr hm⟩
      · rw [mem_sAdd]
        exact ⟨fun hm => hm.resolve_right hx, Or.inl⟩

/-- Witness for C3: returning slot B-2 from a pool where it is occupied. -/
theorem c3_returnLocation_witness :
    (["B-2", "B-3"] : List String).Nodup ∧
    ("B-2" ∈ (["B-2", "B-3"] : List String) →
      (returnLocation ⟨["B-1"], ["B-2", "B-3"]⟩ "B-2").1 = true ∧
      "B-2" ∉ (returnLocation ⟨["B-1"], ["B-2", "B-3"]⟩ "B-2").2.occupied ∧
      "B-2" ∈ (returnLocation ⟨["B-1"], ["B-2", "B-3"]⟩ "B-2").2.available ∧
      (∀ x, x ≠ "B-2" →
        ((x ∈ (returnLocation ⟨["B-1"], ["B-2", "B-3"]⟩ "B-2").2.occupied ↔
            x ∈ (["B-2", "B-3"] : List String)) ∧
         (x ∈ (returnLocation ⟨["B-1"], ["B-2", "B-3"]⟩ "B-2").2.available ↔
            x ∈ (["B-1"] : List String))))) :=
  ⟨by decide, (c3_returnLocation ⟨["B-1"], ["B-2", "B-3"]⟩ "B-2" (by decide)).2⟩

lemma jsTruthy_jsOrNull (x : Option String) :
    jsTruthy (jsOrNull x) = jsTruthy x := by
  cases x with
  | none => rfl
  | some s =>
      by_cases h : s = "" <;> simp [jsOrNull, jsTruthy, h]

lemma getTicket_location_eq_none {d : TicketHash}
    (h : (getTicket d).location = none) : jsOrNull d.location = none := h

/-- C8 (confirmed): calling check-in twice for the same ticket without an
intervening check-out yields success then `already checked in`; the second
call leaves the ticket record and the pool untouched, so across the two
calls exactly one slot left the available set.  The slot hypothesis
`l ≠ ""` reflects that slot identifiers `"{rack}-{spot}"` are never the
empty string. -/
theorem c8_double_checkIn (d : TicketHash) (pool : PoolState)
    (now1 now2 l : String) (rest : List String)
    (hloc : (getTicket d).location = none)
    (hl : l ≠ "")
    (hpool : pool.available = l :: rest) :
    (checkIn d pool now1).1 = .checkedIn l ∧
    (checkIn d pool now1).2.2.available = rest ∧
    (getTicket (checkIn d pool now1).2.1).location = some l ∧
    checkIn (checkIn d pool now1).2.1 (checkIn d pool now1).2.2 now2 =
      (.alreadyCheckedIn l, (checkIn d pool now1).2.1,
        (checkIn d pool now1).2.2) ∧
    (checkIn d pool now1).2.2.available.length + 1 = pool.available.length := by
  obtain ⟨avail, occ⟩ := pool
  simp only at hpool
  subst hpool
  have h1 : checkIn d ⟨l :: rest, occ⟩ now1 =
      (.checkedIn l,
       { token := (getTicket d).token
         location := some l
         createdAt := (getTicket d).createdAt
         checkedInAt := some now1
         checkedOutAt := d.checkedOutAt },
       ⟨rest, sAdd occ l⟩) := by
    simp only [checkIn]
    rw [hloc]
    rfl
  rw [h1]
  refine ⟨rfl, rfl, ?_, ?_, by simp⟩
  · simp [getTicket, jsOrNull, hl]
  · simp only [checkIn, getTicket, jsOrNull, hl, if_neg hl]
    rfl

/-- Witness for C8 at a fresh ticket and a one-slot pool. -/
theorem c8_double_checkIn_witness :
    ((getTicket ⟨some "tok", none, some "t0", none, none⟩).location = none ∧
     ("A-1" : String) ≠ "" ∧
     (⟨["A-1"], []⟩ : PoolState).available = "A-1" :: []) ∧
    (checkIn ⟨some "tok", none, some "t0", none, none⟩ ⟨["A-1"], []⟩ "t1").1 =
      .checkedIn "A-1" :=
  ⟨⟨by decide, by decide, rfl⟩,
    (c8_double_checkIn ⟨some "tok", none, some "t0", none, none⟩ ⟨["A-1"], []⟩
      "t1" "t2" "A-1" [] (by decide) (by decide) rfl).1⟩

/-- Counterexample to C7 as stated: the reachable sequence
new ticket → check-in → check-out → check-in is accepted by the code.  The
third step acts on a record that carries a release timestamp
(`checkedOutAt = "t2"`), yet it succeeds, removes slot A-1 from the
available set again, and re-populates the slot field while the release
timestamp persists — contradicting "no subsequent Assign ... removes a
slot from the pool on its behalf". -/
theorem c7_counterexample :
    checkIn ⟨some "tok", none, some "t0", none, none⟩ ⟨["A-1"], []⟩ "t1" =
      (.checkedIn "A-1",
       ⟨some "tok", some "A-1", some "t0", some "t1", none⟩,
       ⟨[], ["A-1"]⟩) ∧
    checkOut ⟨some "tok", some "A-1", some "t0", some "t1", none⟩
        ⟨[], ["A-1"]⟩ "t2" =
      (.checkedOut,
       ⟨some "tok", some "", some "t0", some "t1", some "t2"⟩,
       ⟨["A-1"], []⟩) ∧
    jsTruthy
      (⟨some "tok", some "", some "t0", some "t1", some "t2"⟩ :
        TicketHash).checkedOutAt = true ∧
    checkIn ⟨some "tok", some "", some "t0", some "t1", some "t2"⟩
        ⟨["A-1"], []⟩ "t3" =
      (.checkedIn "A-1",
       ⟨some "tok", some "A-1", some "t0", some "t3", some "t2"⟩,
       ⟨[], ["A-1"]⟩) := by
  decide

/-- C7 amended: check-in on a ticket whose view holds a location replies
`already checked in` with no mutation, and check-out on a ticket whose
view holds no location replies `not checked in` with no mutation — but a
ticket whose record carries a release timestamp has a falsy location
field, so a subsequent check-in does proceed: it consumes a slot from the
pool and re-populates the slot field while the release timestamp
persists. -/
theorem c7_released_transitions (d : TicketHash) (pool : PoolState)
    (now : String) :
    (∀ loc, (getTicket d).location = some loc →
        checkIn d pool now = (.alreadyCheckedIn loc, d, pool)) ∧
    ((getTicket d).location = none →
        checkOut d pool now = (.notCheckedIn, d, pool)) ∧
    (∀ l rest, (getTicket d).location = none →
        jsTruthy d.checkedOutAt = true →
        pool.available = l :: rest →
        (checkIn d pool now).1 = .checkedIn l ∧
        (checkIn d pool now).2.2.available = rest ∧
        jsTruthy (checkIn d pool now).2.1.checkedOutAt = true) := by
  refine ⟨?_, ?_, ?_⟩
  · intro loc hloc
    simp only [checkIn]
    rw [hloc]
  · intro hloc
    simp only [checkOut]
    rw [hloc]
  · intro l rest hloc hrel hpool
    obtain ⟨avail, occ⟩ := pool
    simp only at hpool
    subst hpool
    have h1 : checkIn d ⟨l :: rest, occ⟩ now =
        (.checkedIn l,
         { token := (getTicket d).token
           location := some l
           createdAt := (getTicket d).createdAt
           checkedInAt := some now
           checkedOutAt := d.checkedOutAt },
         ⟨rest, sAdd occ l⟩) := by
      simp only [checkIn]
      rw [hloc]
      rfl
    rw [h1]
    exact ⟨rfl, rfl, hrel⟩

/-- Witness for C7 at a released ticket record and a one-slot pool. -/
theorem c7_released_transitions_witness :
    ((getTicket ⟨some "tok", some "", some "t0", some "t1", some "t2"⟩).location
        = none ∧
     jsTruthy (⟨some "tok", some "", some "t0", some "t1", some "t2"⟩ :
        TicketHash).checkedOutAt = true) ∧
    (checkIn ⟨some "tok", some "", some "t0", some "t1", some "t2"⟩
        ⟨["B-7"], []⟩ "t3").1 = .checkedIn "B-7" :=
  ⟨⟨by decide, by decide⟩,
    ((c7_released_transitions
        ⟨some "tok", some "", some "t0", some "t1", some "t2"⟩
        ⟨["B-7"], []⟩ "t3").2.2 "B-7" [] (by decide) (by decide) rfl).1⟩

/-- Counterexample to C10 as stated: the record reached by
check-in → check-out → check-in holds both a non-empty slot field and a
release timestamp; on it `getTicket` derives `checked_out` while the
status endpoint derives `checked_in`. -/
theorem c10_counterexample :
    checkIn ⟨some "tk2", none, some "s0", none, none⟩ ⟨["B-7"], []⟩ "s1" =
      (.checkedIn "B-7",
       ⟨some "tk2", some "B-7", some "s0", some "s1", none⟩,
       ⟨[], ["B-7"]⟩) ∧
    checkOut ⟨some "tk2", some "B-7", some "s0", some "s1", none⟩
        ⟨[], ["B-7"]⟩ "s2" =
      (.checkedOut,
       ⟨some "tk2", some "", some "s0", some "s1", some "s2"⟩,
       ⟨["B-7"], []⟩) ∧
    checkIn ⟨some "tk2", some "", some "s0", some "s1", some "s2"⟩
        ⟨["B-7"], []⟩ "s3" =
      (.checkedIn "B-7",
       ⟨some "tk2", some "B-7", some "s0", some "s3", some "s2"⟩,
       ⟨[], ["B-7"]⟩) ∧
    getTicketStatus ⟨some "tk2", some "B-7", some "s0", some "s3", some "s2"⟩
      = "checked_out" ∧
    apiStatus
      (getTicket ⟨some "tk2", some "B-7", some "s0", some "s3", some "s2"⟩)
      = "checked_in" := by
  decide

/-- C10 amended: the two status derivations agree on every ticket record
in which the slot field and the release timestamp are not both truthy; on
a record where both are truthy (reachable by checking a released ticket in
again) `getTicket` yields `checked_out` while the status endpoint yields
`checked_in`. -/
theorem c10_status_agreement (d : TicketHash) :
    (¬(jsTruthy d.location = true ∧ jsTruthy d.checkedOutAt = true) →
      getTicketStatus d = apiStatus (getTicket d)) ∧
    (jsTruthy d.location = true → jsTruthy d.checkedOutAt = true →
      getTicketStatus d = "checked_out" ∧
      apiStatus (getTicket d) = "checked_in") := by
  constructor
  · intro h
    rcases hl : jsTruthy d.location <;> rcases hc : jsTruthy d.checkedOutAt
    · simp [getTicketStatus, apiStatus, getTicket, jsTruthy_jsOrNull, hl, hc]
    · simp [getTicketStatus, apiStatus, getTicket, jsTruthy_jsOrNull, hl, hc]
    · simp [getTicketStatus, apiStatus, getTicket, jsTruthy_jsOrNull, hl, hc]
    · exact absurd ⟨hl, hc⟩ h
  · intro h1 h2
    constructor
    · simp [getTicketStatus, h2]
    · simp [apiStatus, getTicket, jsTruthy_jsOrNull, h1]

/-- Witness for C10 at a new ticket record (both fields absent). -/
theorem c10_status_agreement_witness :
    (¬(jsTruthy (⟨some "tok", none, some "t0", none, none⟩ :
          TicketHash).location = true ∧
       jsTruthy (⟨some "tok", none, some "t0", none, none⟩ :
          TicketHash).checkedOutAt = true)) ∧
    getTicketStatus ⟨some "tok", none, some "t0", none, none⟩ =
      apiStatus (getTicket ⟨some "tok", none, some "t0", none, none⟩) :=
  ⟨by decide,
    (c10_status_agreement ⟨some "tok", none, some "t0", none, none⟩).1
      (by decide)⟩

lemma issueN_range (n : Nat) :
    ∀ c, c + n ≤ MAX_TICKETS_PER_EVENT →
      issueN n c = ((List.range' (c + 1) n).map some, c + n) := by
  induction n with
  | zero => intro c _; simp [issueN]
  | succ m ih =>
      intro c hc
      have hlt : ¬ MAX_TICKETS_PER_EVENT ≤ c := by omega
      have hrec := ih (c + 1) (by omega)
      have harith : c + 1 + m = c + (m + 1) := by omega
      simp only [issueN, issueTicket, if_neg hlt, hrec, List.range'_succ,
        List.map_cons, harith]

/-- C5: starting from the zero counter a fresh event gets at creation,
`N` ticket issuances with `N` within the per-event ceiling all succeed and
yield exactly the ticket numbers `1, 2, ..., N` in order: a contiguous,
duplicate-free range starting at 1. -/
theorem c5_ticket_numbering (N : Nat) (h : N ≤ MAX_TICKETS_PER_EVENT) :
    (issueN N 0).1 = (List.range' 1 N).map some ∧
    (issueN N 0).1.filterMap id = List.range' 1 N ∧
    ((issueN N 0).1.filterMap id).Nodup := by
  have hr := issueN_range N 0 (by omega)
  rw [hr]
  refine ⟨rfl, by simp, by simp [List.nodup_range']⟩

/-- Witness for C5 with three issuances. -/
theorem c5_ticket_numbering_witness :
    3 ≤ MAX_TICKETS_PER_EVENT ∧
    (issueN 3 0).1 = [some 1, some 2, some 3] :=
  ⟨by decide, by simpa using (c5_ticket_numbering 3 (by decide)).1⟩

/-- Counterexample to C6 as stated: with 100 events already created this
hour, the next creation attempt is rejected by the global hourly ceiling,
yet the rejected call has incremented `events_created_this_hour` to 101 —
the store is not left unmodified. -/
theorem c6_counterexample :
    eventCreationQuotaPhase ⟨0, 100, 0⟩ =
      (.hourlyLimited, ⟨0, 101, 0⟩) ∧
    (⟨0, 101, 0⟩ : CreationStore) ≠ (⟨0, 100, 0⟩ : CreationStore) := by
  decide

/-- C6 amended: a rejection by the active-event ceiling leaves the store
unchanged; a rejection by the global hourly ceiling has incremented
exactly the hourly counter; a rejection by the per-IP ceiling has
incremented exactly the hourly and per-IP counters; no rejection path
touches the active-event registry. -/
theorem c6_quota_side_effects (st : CreationStore) :
    (MAX_ACTIVE_EVENTS ≤ st.activeEvents →
      eventCreationQuotaPhase st = (.atCapacity, st)) ∧
    ((eventCreationQuotaPhase st).1 = .hourlyLimited →
      (eventCreationQuotaPhase st).2 =
        { st with hourlyCount := st.hourlyCount + 1 }) ∧
    ((eventCreationQuotaPhase st).1 = .ipLimited →
      (eventCreationQuotaPhase st).2 =
        { st with hourlyCount := st.hourlyCount + 1,
                  ipCount := st.ipCount + 1 }) ∧
    (eventCreationQuotaPhase st).2.activeEvents = st.activeEvents := by
  obtain ⟨a, hcnt, ip⟩ := st
  simp only [eventCreationQuotaPhase]
  split_ifs with h1 h2 h3 <;> simp_all

/-- Witness for C6 at a store already holding the maximum number of
active events. -/
theorem c6_quota_side_effects_witness :
    MAX_ACTIVE_EVENTS ≤ (⟨1000, 0, 0⟩ : CreationStore).activeEvents ∧
    eventCreationQuotaPhase ⟨1000, 0, 0⟩ =
      (.atCapacity, ⟨1000, 0, 0⟩) :=
  ⟨by decide, (c6_quota_side_effects ⟨1000, 0, 0⟩).1 (by decide)⟩

/-- C9 at its failing input: when the existence check reports a collision
for the first nine candidates and the tenth candidate is fresh, the loop
breaks with `attempts = 10` and `createEvent` still throws — although the
tenth attempt passed the existence check, contradicting the claim that a
passing tenth attempt succeeds. -/
theorem c9_failing_input :
    ((fun s => s == "dup") ((fun i => if i = 9 then "fresh" else "dup") 9)
        = false) ∧
    (∀ i < 9,
      (fun s => s == "dup") ((fun i => if i = 9 then "fresh" else "dup") i)
        = true) ∧
    createEventSlug (fun i => if i = 9 then "fresh" else "dup")
      (fun s => s == "dup") = none := by
  refine ⟨by decide, by decide, by decide⟩

lemma char_toNat_ofNat {n : Nat} (h : n < 55296) : (Char.ofNat n).toNat = n := by
  have hv : n.isValidChar := Or.inl h
  simp [Char.ofNat, hv]
  rfl

lemma charDigit_digitChar {d : Nat} (h : d < 10) :
    charDigit (digitChar d) = some d := by
  have ht : (digitChar d).toNat = 48 + d := char_toNat_ofNat (by omega)
  unfold charDigit
  rw [ht, if_pos (by omega)]
  congr 1
  omega

lemma natToCharsAux_congr : ∀ f1 f2 n : Nat, n < f1 → n < f2 →
    natToCharsAux f1 n = natToCharsAux f2 n := by
  intro f1
  induction f1 with
  | zero => intro f2 n h1 _; omega
  | succ a ih =>
      intro f2 n h1 h2
      match f2, h2 with
      | b + 1, h2 =>
        by_cases hn : n < 10
        · simp [natToCharsAux, hn]
        · have hdiv : n / 10 < n := Nat.div_lt_self (by omega) (by omega)
          simp only [natToCharsAux, if_neg hn]
          rw [ih b (n / 10) (by omega) (by omega)]

lemma natToChars_lt10 {n : Nat} (h : n < 10) : natToChars n = [digitChar n] := by
  simp [natToChars, natToCharsAux, h]

lemma natToChars_ge10 {n : Nat} (h : 10 ≤ n) :
    natToChars n = natToChars (n / 10) ++ [digitChar (n % 10)] := by
  have hdiv : n / 10 < n := Nat.div_lt_self (by omega) (by omega)
  show natToCharsAux (n + 1) n = _
  simp only [natToCharsAux, if_neg (Nat.not_lt.mpr h)]
  rw [natToCharsAux_congr n (n / 10 + 1) (n / 10) (by omega) (by omega)]
  rfl

lemma natToChars_ne_nil (n : Nat) : natToChars n ≠ [] := by
  by_cases hn : n < 10
  · rw [natToChars_lt10 hn]; simp
  · rw [natToChars_ge10 (by omega)]; simp

lemma charsToNatAux_append (l1 l2 : List Char) :
    ∀ acc, charsToNatAux (l1 ++ l2) acc =
      (charsToNatAux l1 acc).bind (fun v => charsToNatAux l2 v) := by
  induction l1 with
  | nil => intro acc; rfl
  | cons c rest ih =>
      intro acc
      simp only [List.cons_append, charsToNatAux]
      cases charDigit c with
      | none => rfl
      | some d => exact ih _

lemma charsToNatAux_natToChars (n : Nat) :
    ∀ acc, charsToNatAux (natToChars n) acc =
      some (acc * 10 ^ (natToChars n).length + n) := by
  induction n using Nat.strong_induction_on with
  | _ n ih =>
      intro acc
      by_cases hn : n < 10
      · rw [natToChars_lt10 hn]
        simp [charsToNatAux, charDigit_digitChar hn]
      · have h10 : 10 ≤ n := by omega
        have hdiv : n / 10 < n := Nat.div_lt_self (by omega) (by omega)
        have hmod : n % 10 < 10 := Nat.mod_lt _ (by omega)
        rw [natToChars_ge10 h10, charsToNatAux_append,
          ih (n / 10) hdiv acc]
        simp only [Option.some_bind, charsToNatAux,
          charDigit_digitChar hmod, List.length_append,
          List.length_singleton]
        congr 1
        have hdm : n / 10 * 10 + n % 10 = n := by omega
        calc (acc * 10 ^ (natToChars (n / 10)).length + n / 10) * 10 + n % 10
            = acc * (10 ^ (natToChars (n / 10)).length * 10) +
                (n / 10 * 10 + n % 10) := by ring
          _ = acc * 10 ^ ((natToChars (n / 10)).length + 1) + n := by
                rw [hdm, pow_succ]

lemma jsNumber_natToChars (n : Nat) : jsNumber (natToChars n) = some n := by
  cases h : natToChars n with
  | nil => exact absurd h (natToChars_ne_nil n)
  | cons c cs =>
      have hmain := charsToNatAux_natToChars n 0
      rw [h] at hmain
      show jsNumber (c :: cs) = some n
      rw [show jsNumber (c :: cs) = charsToNatAux (c :: cs) 0 from rfl, hmain]
      simp

lemma natToChars_inj {m n : Nat} (h : natToChars m = natToChars n) : m = n := by
  have hm := jsNumber_natToChars m
  rw [h, jsNumber_natToChars n] at hm
  exact (Option.some_inj.mp hm).symm

lemma natToChars_digits : ∀ n : Nat, ∀ c ∈ natToChars n,
    48 ≤ c.toNat ∧ c.toNat ≤ 57 := by
  intro n
  induction n using Nat.strong_induction_on with
  | _ n ih =>
      intro c hc
      by_cases hn : n < 10
      · rw [natToChars_lt10 hn] at hc
        rw [List.mem_singleton] at hc
        subst hc
        have := char_toNat_ofNat (n := 48 + n) (by omega)
        unfold digitChar
        rw [this]
        omega
      · rw [natToChars_ge10 (by omega)] at hc
        rcases List.mem_append.mp hc with hc | hc
        · exact ih (n / 10) (Nat.div_lt_self (by omega) (by omega)) c hc
        · rw [List.mem_singleton] at hc
          subst hc
          have hmod : n % 10 < 10 := Nat.mod_lt _ (by omega)
          have := char_toNat_ofNat (n := 48 + n % 10) (by omega)
          unfold digitChar
          rw [this]
          omega

lemma dash_not_mem_natToChars (n : Nat) : '-' ∉ natToChars n := by
  intro h
  have := natToChars_digits n _ h
  have hd : ('-' : Char).toNat = 45 := rfl
  omega

lemma colon_not_mem_natToChars (n : Nat) : ':' ∉ natToChars n := by
  intro h
  have := natToChars_digits n _ h
  have hd : (':' : Char).toNat = 58 := rfl
  omega

lemma jsSplit_no_sep {sep : Char} : ∀ {a : List Char}, sep ∉ a →
    jsSplit sep a = [a] := by
  intro a
  induction a with
  | nil => intro _; rfl
  | cons c rest ih =>
      intro h
      rw [List.mem_cons, not_or] at h
      obtain ⟨h1, h2⟩ := h
      have hc : ¬ c = sep := fun hq => h1 hq.symm
      simp only [jsSplit, if_neg hc, ih h2]

lemma jsSplit_append {sep : Char} {a : List Char} (h : sep ∉ a)
    (b : List Char) : jsSplit sep (a ++ sep :: b) = a :: jsSplit sep b := by
  induction a with
  | nil => simp [jsSplit]
  | cons c rest ih =>
      rw [List.mem_cons, not_or] at h
      obtain ⟨h1, h2⟩ := h
      have hc : ¬ c = sep := fun hq => h1 hq.symm
      have hrec := ih h2
      show jsSplit sep (c :: (rest ++ sep :: b)) = (c :: rest) :: jsSplit sep b
      simp only [jsSplit, if_neg hc]
      rw [hrec]

lemma char_ne_of_toNat_ne {c d : Char} (h : c.toNat ≠ d.toNat) : c ≠ d :=
  fun hq => h (congrArg Char.toNat hq)

lemma parseLocationSchema_buildLocationSchema
    (r1 r2 : Char) (p1 p2 : Nat)
    (h1 : 65 ≤ r1.toNat) (h1' : r1.toNat ≤ 90)
    (h2 : 65 ≤ r2.toNat) (h2' : r2.toNat ≤ 90) :
    parseLocationSchema (buildLocationSchema r1 r2 p1 p2) =
      some ((List.range' r1.toNat (r2.toNat + 1 - r1.toNat)).flatMap
        (fun code => (List.range' p1 (p2 + 1 - p1)).map
          (fun spot => locationId (Char.ofNat code) spot))) := by
  have hr1c : r1 ≠ ':' :=
    char_ne_of_toNat_ne (by rw [show (':' : Char).toNat = 58 from rfl]; omega)
  have hr2c : r2 ≠ ':' :=
    char_ne_of_toNat_ne (by rw [show (':' : Char).toNat = 58 from rfl]; omega)
  have hr1d : r1 ≠ '-' :=
    char_ne_of_toNat_ne (by rw [show ('-' : Char).toNat = 45 from rfl]; omega)
  have hr2d : r2 ≠ '-' :=
    char_ne_of_toNat_ne (by rw [show ('-' : Char).toNat = 45 from rfl]; omega)
  have hdc : ('-' : Char) ≠ ':' := by decide
  have hcolon_a : ':' ∉ [r1, '-', r2] := by
    intro hm
    simp only [List.mem_cons, List.not_mem_nil, or_false] at hm
    rcases hm with hm | hm | hm
    · exact hr1c hm.symm
    · exact hdc hm.symm
    · exact hr2c hm.symm
  have hcolon_b : ':' ∉ natToChars p1 ++ '-' :: natToChars p2 := by
    intro hm
    rcases List.mem_append.mp hm with hm | hm
    · exact colon_not_mem_natToChars p1 hm
    · rcases List.mem_cons.mp hm with hm | hm
      · exact hdc hm.symm
      · exact colon_not_mem_natToChars p2 hm
  have hdash_r1 : '-' ∉ [r1] := by
    intro hm
    rw [List.mem_singleton] at hm
    exact hr1d hm.symm
  have hdash_r2 : '-' ∉ [r2] := by
    intro hm
    rw [List.mem_singleton] at hm
    exact hr2d hm.symm
  have hsplit1 : jsSplit ':' (buildLocationSchema r1 r2 p1 p2).data =
      [[r1, '-', r2], natToChars p1 ++ '-' :: natToChars p2] := by
    show jsSplit ':' ([r1, '-', r2] ++ ':' ::
      (natToChars p1 ++ '-' :: natToChars p2)) = _
    rw [jsSplit_append hcolon_a, jsSplit_no_sep hcolon_b]
  have hsplit2 : jsSplit '-' [r1, '-', r2] = [[r1], [r2]] := by
    show jsSplit '-' ([r1] ++ '-' :: [r2]) = _
    rw [jsSplit_append hdash_r1, jsSplit_no_sep hdash_r2]
  have hsplit3 : jsSplit '-' (natToChars p1 ++ '-' :: natToChars p2) =
      [natToChars p1, natToChars p2] := by
    rw [jsSplit_append (dash_not_mem_natToChars p1),
      jsSplit_no_sep (dash_not_mem_natToChars p2)]
  simp only [parseLocationSchema, hsplit1, hsplit2, hsplit3, List.map_cons,
    List.map_nil, jsNumber_natToChars, List.getD, List.head?, Option.map_some]
  rfl

lemma locationId_inj {c1 c2 : Char} {q1 q2 : Nat}
    (h : locationId c1 q1 = locationId c2 q2) : c1 = c2 ∧ q1 = q2 := by
  have hd : c1 :: '-' :: natToChars q1 = c2 :: '-' :: natToChars q2 :=
    congrArg String.data h
  injection hd with ha hb
  injection hb with _ hc
  exact ⟨ha, natToChars_inj hc⟩

lemma expansion_length (a k p m : Nat) :
    ((List.range' a k).flatMap (fun code =>
      (List.range' p m).map (fun spot =>
        locationId (Char.ofNat code) spot))).length = k * m := by
  rw [List.length_flatMap]
  have hrep : List.map (List.length ∘ fun code => (List.range' p m).map
      (fun spot => locationId (Char.ofNat code) spot)) (List.range' a k) =
      List.replicate k m := by
    rw [List.eq_replicate_iff]
    constructor
    · simp [List.length_range']
    · intro b hb
      rcases List.mem_map.mp hb with ⟨x, _, rfl⟩
      simp [List.length_range']
  rw [hrep, List.sum_replicate, smul_eq_mul]

lemma expansion_nodup {a k p m : Nat} (hk : a + k ≤ 55296) :
    ((List.range' a k).flatMap (fun code =>
      (List.range' p m).map (fun spot =>
        locationId (Char.ofNat code) spot))).Nodup := by
  rw [List.nodup_flatMap]
  constructor
  · intro code _
    refine List.Nodup.map_on ?_ (List.nodup_range' _ _)
    intro x _ y _ hxy
    exact (locationId_inj hxy).2
  · refine List.Pairwise.imp_of_mem ?_ (List.pairwise_lt_range' a k)
    intro x y hx hy hxy s hsx hsy
    have hxb : x < a + k := by
      rcases List.mem_range'.mp hx with ⟨i, hi, rfl⟩
      omega
    have hyb : y < a + k := by
      rcases List.mem_range'.mp hy with ⟨i, hi, rfl⟩
      omega
    rcases List.mem_map.mp hsx with ⟨px, _, rfl⟩
    rcases List.mem_map.mp hsy with ⟨py, _, heq⟩
    have hchar : Char.ofNat y = Char.ofNat x := (locationId_inj heq).1
    have hxy' : y = x := by
      have hxv := char_toNat_ofNat (n := x) (by omega)
      have hyv := char_toNat_ofNat (n := y) (by omega)
      rw [← hxv, ← hyv, hchar]
    omega

lemma foldl_sAdd_eq_append : ∀ (L acc : List String), (acc ++ L).Nodup →
    L.foldl sAdd acc = acc ++ L := by
  intro L
  induction L with
  | nil => intro acc _; simp
  | cons x xs ih =>
      intro acc h
      have hx : x ∉ acc := by
        intro hm
        exact List.disjoint_of_nodup_append h hm (List.mem_cons_self x xs)
      have h' : ((acc ++ [x]) ++ xs).Nodup := by
        rw [← List.append_cons]
        exact h
      simp only [List.foldl_cons, sAdd_of_not_mem hx]
      rw [ih (acc ++ [x]) h']
      exact (List.append_cons acc x xs).symm

/-- C4: for every valid layout descriptor built from rank letters
`r1 ≤ r2` (uppercase) and positions `1 ≤ p1 ≤ p2`, `parseLocationSchema`
recovers from the descriptor string exactly the
`(r2-r1+1)*(p2-p1+1)` distinct identifiers `"{rank}-{position}"` of the
Cartesian product in row-major order, and the fresh-initialization path of
`initializeLocations` puts precisely this list into the available set; in
particular `"A-C:1-3"` expands to the nine slots A-1 … C-3. -/
theorem c4_layout_expansion (r1 r2 : Char) (p1 p2 : Nat)
    (hA : 'A' ≤ r1) (h12 : r1 ≤ r2) (hZ : r2 ≤ 'Z')
    (hp1 : 1 ≤ p1) (hp12 : p1 ≤ p2) :
    (∃ L, parseLocationSchema (buildLocationSchema r1 r2 p1 p2) = some L ∧
      L = (List.range' r1.toNat (r2.toNat + 1 - r1.toNat)).flatMap
        (fun code => (List.range' p1 (p2 + 1 - p1)).map
          (fun spot => locationId (Char.ofNat code) spot)) ∧
      L.length = (r2.toNat - r1.toNat + 1) * (p2 - p1 + 1) ∧
      L.Nodup ∧
      initializeLocations L = ⟨L, []⟩) ∧
    parseLocationSchema "A-C:1-3" =
      some ["A-1", "A-2", "A-3", "B-1", "B-2", "B-3",
            "C-1", "C-2", "C-3"] := by
  have h65 : (65 : Nat) ≤ r1.toNat := hA
  have h90 : r2.toNat ≤ 90 := hZ
  have h1212 : r1.toNat ≤ r2.toNat := h12
  have hnd := expansion_nodup
    (a := r1.toNat) (k := r2.toNat + 1 - r1.toNat)
    (p := p1) (m := p2 + 1 - p1) (by omega)
  refine ⟨⟨_, parseLocationSchema_buildLocationSchema r1 r2 p1 p2
    h65 (by omega) (by omega) h90, rfl, ?_, hnd, ?_⟩, ?_⟩
  · rw [expansion_length]
    have e1 : r2.toNat + 1 - r1.toNat = r2.toNat - r1.toNat + 1 := by omega
    have e2 : p2 + 1 - p1 = p2 - p1 + 1 := by omega
    rw [e1, e2]
  · unfold initializeLocations
    rw [foldl_sAdd_eq_append _ [] (by simpa using hnd)]
    simp
  · decide

/-- Witness for C4 at the descriptor A-C:1-3 from the spec's example. -/
theorem c4_layout_expansion_witness :
    (('A' : Char) ≤ 'A' ∧ ('A' : Char) ≤ 'C' ∧ ('C' : Char) ≤ 'Z' ∧
      (1 : Nat) ≤ 1 ∧ (1 : Nat) ≤ 3) ∧
    parseLocationSchema "A-C:1-3" =
      some ["A-1", "A-2", "A-3", "B-1", "B-2", "B-3",
            "C-1", "C-2", "C-3"] :=
  ⟨⟨by decide, by decide, by decide, by decide, by decide⟩,
    (c4_layout_expansion 'A' 'C' 1 3 (by decide) (by decide) (by decide)
      (by decide) (by decide)).2⟩

end Garderobe
